import Mathlib

/-!
Verification development for the Fadecandy device backend
(`src/server/src/fcdevice.cpp`).

The C++ source is shallowly embedded below:

* `FCDevice`'s mutable session state becomes the structure `FCState`
  (fields keep their source names: `mPending`, `mNumFramesPending`,
  `mFrameWaitingForSubmit`, `mFramebuffer`, `mConfigMap`, `mColorLUT`,
  `mFirmwareConfig`).
* The framebuffer is represented pixel-wise as a list of RGB triples; the
  packet-chunked addressing of `fbPixel` is claim-irrelevant and is modelled
  as direct indexing by pixel number.  The framebuffer's pixel capacity
  `NUM_PIXELS` is the length of that list.
* 32-bit `unsigned` arithmetic is `Nat` together with `usub32`, which wraps
  the subtraction modulo `2 ^ 32` exactly as the machine does.
* `libusb_submit_transfer`'s outcome, the JSON parser, and completion
  callbacks are external capabilities; their results enter the model as
  explicit parameters (`ok : Bool`, `Except Nat Nat` parse results,
  `completeTransferAt`).
* The floating-point color curve is modelled twice: the quantization and
  clamping arithmetic (lines 318-324) over `ℚ`/`ℤ`, and the curve formulas
  (lines 297-316) over `ℝ` with `Real.rpow` standing for `pow`.
-/

/-- One RGB triple: the three bytes of one framebuffer pixel. -/
abbrev Byte3 := Nat × Nat × Nat

/-- 32-bit unsigned subtraction, `a - b` computed modulo `2 ^ 32` the way the
`unsigned` subtractions on lines 460-461 of `fcdevice.cpp` are. -/
def usub32 (a b : Nat) : Nat := (a + 2 ^ 32 - b) % 2 ^ 32

/-- An OPC message: `channel`/`command` header bytes and payload bytes
(`data`); `msg.length()` in the source is `data.length` here. -/
structure OPCMessage where
  channel : Nat
  command : Nat
  data : List Nat
deriving DecidableEq

namespace OPC

/-- Modelled from the spec (section 6, OPC wire format): `command = 0` is
set-pixel-colors.  The numeric value lives in `opc.h`, outside `src/`. -/
def SetPixelColors : Nat := 0

/-- Modelled from the spec (section 6, OPC wire format): `command = 0xFF` is
system-exclusive.  The numeric value lives in `opc.h`, outside `src/`. -/
def SystemExclusive : Nat := 255

/-- Modelled from the spec (section 6): the system-exclusive extension ID
selecting set-global-color-correction.  The concrete value lives in `opc.h`,
outside `src/`; the spec fixes only that the two IDs are distinct. -/
def FCSetGlobalColorCorrection : Nat := 1

/-- Modelled from the spec (section 6): the system-exclusive extension ID
selecting set-firmware-configuration.  The concrete value lives in `opc.h`,
outside `src/`. -/
def FCSetFirmwareConfiguration : Nat := 2

end OPC

/-- One JSON mapping instruction, as classified by `opcMapPixelColors`
(lines 439-447): either a well-shaped `[channel, firstOPC, firstOut, count]`
array of unsigned integers, or anything else (wrong shape or types), which
the source reports and skips. -/
inductive MapInst where
  | rule (channel firstOPC firstOut count : Nat)
  | malformed
deriving DecidableEq

/-- Result of the clamping block of `opcMapPixelColors`
(lines 457-461 of `fcdevice.cpp`). -/
structure ClampResult where
  firstOPC : Nat
  firstOut : Nat
  count : Nat
deriving DecidableEq

/-- The clamping block of `opcMapPixelColors` (lines 457-461), verbatim:
`firstOPC = min(firstOPC, msgPixelCount)`,
`firstOut = min(firstOut, NUM_PIXELS)`,
`count = min(count, msgPixelCount - firstOPC)`,
`count = min(count, NUM_PIXELS - firstOut)`,
with the two subtractions performed in 32-bit unsigned arithmetic. -/
def clampRule (firstOPC firstOut count msgPixelCount numPixels : Nat) : ClampResult :=
  let f := min firstOPC msgPixelCount
  let o := min firstOut numPixels
  let c1 := min count (usub32 msgPixelCount f)
  let c2 := min c1 (usub32 numPixels o)
  ⟨f, o, c2⟩

/-- Pixel number `i` of the message payload: bytes `3*i`, `3*i+1`, `3*i+2`
(out-of-range reads default to 0; C1 shows the program never performs them). -/
def pixelAt (data : List Nat) (i : Nat) : Byte3 :=
  (data.getD (i * 3) 0, data.getD (i * 3 + 1) 0, data.getD (i * 3 + 2) 0)

/-- The copy loop of `opcMapPixelColors` (lines 464-473): copy `count` RGB
triples from message pixel `f` onwards into framebuffer pixels `o` onwards. -/
def copyPixels (data : List Nat) (f o : Nat) : Nat → List Byte3 → List Byte3
  | 0, fb => fb
  | c + 1, fb => copyPixels data (f + 1) (o + 1) c (fb.set o (pixelAt data f))

/-- `FCDevice::opcMapPixelColors` (lines 427-483): apply one mapping
instruction to the framebuffer.  Malformed instructions are skipped (the
source logs them); instructions whose channel differs from the message's
channel are silently skipped; otherwise the clamped range is copied. -/
def opcMapPixelColors (msg : OPCMessage) (inst : MapInst) (fb : List Byte3) : List Byte3 :=
  let msgPixelCount := msg.data.length / 3
  match inst with
  | .malformed => fb
  | .rule channel firstOPC firstOut count =>
    if channel ≠ msg.channel then fb
    else
      let r := clampRule firstOPC firstOut count msgPixelCount fb.length
      copyPixels msg.data r.firstOPC r.firstOut r.count fb

theorem copyPixels_length (data : List Nat) :
    ∀ (c f o : Nat) (fb : List Byte3), (copyPixels data f o c fb).length = fb.length := by
  intro c
  induction c with
  | zero => intro f o fb; rfl
  | succ n ih =>
      intro f o fb
      simp [copyPixels, ih, List.length_set]

/-- C1: for arbitrary unsigned `firstSourcePixel`, `firstDestPixel` and
`count`, the clamps of `opcMapPixelColors` are saturating and underflow-free
(each wrapped 32-bit subtraction coincides with the exact one), every source
byte offset touched by the copy loop lies inside the message's pixel payload
(`< msgPixelCount * 3`), every destination pixel index lies inside the
framebuffer (`< NUM_PIXELS`), and the copy never changes the framebuffer's
size. -/
theorem opcMapPixelColors_clamp_safe (msg : OPCMessage) (fb : List Byte3)
    (channel firstOPC firstOut count : Nat)
    (hmsg : msg.data.length < 2 ^ 32) (hfb : fb.length < 2 ^ 32) :
    let mpc := msg.data.length / 3
    let r := clampRule firstOPC firstOut count mpc fb.length
    usub32 mpc r.firstOPC = mpc - r.firstOPC ∧
    usub32 fb.length r.firstOut = fb.length - r.firstOut ∧
    r.firstOPC + r.count ≤ mpc ∧
    r.firstOut + r.count ≤ fb.length ∧
    (∀ j k : Nat, j < r.count → k < 3 → (r.firstOPC + j) * 3 + k < mpc * 3) ∧
    (∀ j : Nat, j < r.count → r.firstOut + j < fb.length) ∧
    (opcMapPixelColors msg (.rule channel firstOPC firstOut count) fb).length = fb.length := by
  intro mpc r
  have hmpc : mpc < 2 ^ 32 := lt_of_le_of_lt (Nat.div_le_self _ _) hmsg
  have hf : min firstOPC mpc ≤ mpc := min_le_right _ _
  have ho : min firstOut fb.length ≤ fb.length := min_le_right _ _
  have husub1 : usub32 mpc (min firstOPC mpc) = mpc - min firstOPC mpc := by
    unfold usub32; omega
  have husub2 : usub32 fb.length (min firstOut fb.length) =
      fb.length - min firstOut fb.length := by
    unfold usub32; omega
  have hr : r = ⟨min firstOPC mpc, min firstOut fb.length,
      min (min count (mpc - min firstOPC mpc)) (fb.length - min firstOut fb.length)⟩ := by
    show clampRule firstOPC firstOut count mpc fb.length = _
    simp only [clampRule]
    rw [husub1, husub2]
  refine ⟨?_, ?_, ?_, ?_, ?_, ?_, ?_⟩
  · rw [hr]; exact husub1
  · rw [hr]; exact husub2
  · rw [hr]; simp only; omega
  · rw [hr]; simp only; omega
  · rw [hr]; simp only; omega
  · rw [hr]; simp only; omega
  · unfold opcMapPixelColors
    by_cases hch : channel ≠ msg.channel
    · simp [hch]
    · simp [hch, copyPixels_length]

/-- Witness for C1: the theorem applied to a concrete message of 2 pixels,
a framebuffer of 8 pixels, and rule values 5, 3, 100 that all exceed their
bounds. -/
theorem opcMapPixelColors_clamp_safe_witness :
    (opcMapPixelColors ⟨1, 0, [9, 9, 9, 9, 9, 9]⟩ (.rule 1 5 3 100)
      (List.replicate 8 ((0, 0, 0) : Byte3))).length =
    (List.replicate 8 ((0, 0, 0) : Byte3)).length :=
  (opcMapPixelColors_clamp_safe ⟨1, 0, [9, 9, 9, 9, 9, 9]⟩
    (List.replicate 8 ((0, 0, 0) : Byte3)) 1 5 3 100 (by simp)
    (by simp)).2.2.2.2.2.2

/-- `PacketType` of a transfer: the source's `flush` only distinguishes
`FRAME` from everything else (config and LUT transfers). -/
inductive PacketType where
  | OTHER
  | FRAME
deriving DecidableEq

/-- `FCDevice::Transfer` (lines 32-43): one outstanding asynchronous USB
write.  `payload` is the snapshot of the buffer the OS copies at submit time
(meaningful for `FRAME` transfers; LUT/config packet contents are tracked by
the `mColorLUT`/`mFirmwareConfig` session fields, so non-frame transfers
carry `[]` here).  The `libusb_transfer` handle is external and omitted. -/
structure Transfer where
  type : PacketType
  payload : List Byte3
  finished : Bool
deriving DecidableEq

/-- The mutable session state of one `FCDevice`.  `mPending` is the in-flight
transfer set (a `std::set` over pointers; modelled as a list, insertion at the
tail).  `mColorLUT` abstracts the LUT packet array by the configuration
document that produced it (its numeric entries are modelled separately by
`lutIntValue`); `mFirmwareConfig` is the config packet's payload bytes. -/
structure FCState where
  mPending : List Transfer
  mNumFramesPending : Int
  mFrameWaitingForSubmit : Bool
  mFramebuffer : List Byte3
  mConfigMap : Option (List MapInst)
  mColorLUT : Nat
  mFirmwareConfig : List Nat
deriving DecidableEq

/-- `FCDevice::submitTransfer` (lines 146-166).  The outcome of
`libusb_submit_transfer` is the external parameter `ok`: on failure the
Transfer is destroyed immediately and the call reports failure; on success it
joins `mPending` and the call reports success. -/
def submitTransfer (ok : Bool) (fct : Transfer) (s : FCState) : FCState × Bool :=
  if ok then ({ s with mPending := s.mPending ++ [fct] }, true)
  else (s, false)

/-- `FCDevice::completeTransfer` (lines 168-172), applied to the `i`-th
in-flight transfer: the completion callback only flips that transfer's
`finished` flag. -/
def completeTransferAt (i : Nat) (s : FCState) : FCState :=
  { s with mPending :=
      s.mPending.take i ++
        (match s.mPending.drop i with
          | [] => []
          | fct :: rest => { fct with finished := true } :: rest) }

/-- `FCDevice::writeFramebuffer` (lines 336-357), with the in-flight cap
`MAX_FRAMES_PENDING` (a header constant outside `src/`) as the parameter `K`
and the submission outcome as `ok`. -/
def writeFramebuffer (K : Nat) (ok : Bool) (s : FCState) : FCState :=
  if (K : Int) ≤ s.mNumFramesPending then
    { s with mFrameWaitingForSubmit := true }
  else
    match submitTransfer ok ⟨.FRAME, s.mFramebuffer, false⟩ s with
    | (s1, true) =>
        { s1 with mFrameWaitingForSubmit := false,
                  mNumFramesPending := s1.mNumFramesPending + 1 }
    | (s1, false) => s1

/-- The reap loop of `FCDevice::flush` (lines 176-200): erase every finished
transfer, decrementing `mNumFramesPending` once per finished `FRAME`. -/
def flushReap (s : FCState) : FCState :=
  { s with
      mPending := s.mPending.filter (fun fct => !fct.finished),
      mNumFramesPending := s.mNumFramesPending -
        (s.mPending.countP (fun fct => fct.finished && fct.type == PacketType.FRAME) : Int) }

/-- `FCDevice::flush` (lines 174-207): reap, then resubmit the current
framebuffer if a frame was deferred and a slot is now free. -/
def flush (K : Nat) (ok : Bool) (s : FCState) : FCState :=
  let s1 := flushReap s
  if s1.mFrameWaitingForSubmit ∧ s1.mNumFramesPending < (K : Int) then
    writeFramebuffer K ok s1
  else s1

/-- `FCDevice::~FCDevice` (lines 69-81): requests cancellation of every
in-flight transfer's underlying operation (an external side effect); the
`mPending` set and the counters are not touched. -/
def destructorCancelAll (s : FCState) : FCState := s

/-- `n` consecutive `writeFramebuffer` calls whose submissions all succeed. -/
def writeFramebufferN (K n : Nat) (s : FCState) : FCState :=
  (writeFramebuffer K true)^[n] s

/-- `FCDevice::opcSetPixelColors` (lines 409-425): while `mConfigMap` is
unbound the function returns immediately; otherwise every mapping instruction
is applied to the framebuffer in order. -/
def opcSetPixelColors (msg : OPCMessage) (s : FCState) : FCState :=
  match s.mConfigMap with
  | none => s
  | some map =>
      { s with mFramebuffer :=
          map.foldl (fun fb inst => opcMapPixelColors msg inst fb) s.mFramebuffer }

/-- `FCDevice::writeColorCorrection` (lines 209-334) at the session level:
recompute the LUT packets from the parsed configuration document `doc` and
submit them (entry arithmetic is modelled by `lutIntValue` below). -/
def writeColorCorrection (doc : Nat) (ok : Bool) (s : FCState) : FCState :=
  (submitTransfer ok ⟨.OTHER, [], false⟩ { s with mColorLUT := doc }).1

/-- `FCDevice::opcSetGlobalColorCorrection` (lines 485-512).  Parsing is
performed by the external rapidjson library; its outcome is the parameter:
`Except.error off` is a parse failure at byte offset `off`, `Except.ok doc`
a successfully parsed document. -/
def opcSetGlobalColorCorrection (parseResult : Except Nat Nat) (ok : Bool)
    (s : FCState) : FCState :=
  match parseResult with
  | .error _ => s
  | .ok doc => writeColorCorrection doc ok s

/-- The diagnostic of lines 499-505: a parse failure is reported together
with its byte offset (`GetErrorOffset`); success reports nothing. -/
def colorCorrectionDiag (parseResult : Except Nat Nat) : Option Nat :=
  match parseResult with
  | .error off => some off
  | .ok _ => none

/-- `FCDevice::writeFirmwareConfiguration` (lines 524-528). -/
def writeFirmwareConfiguration (ok : Bool) (s : FCState) : FCState :=
  (submitTransfer ok ⟨.OTHER, [], false⟩ s).1

/-- `FCDevice::opcSetFirmwareConfiguration` (lines 514-522): `memcpy` of
`min(sizeof mFirmwareConfig.data, msg.length() - 4)` payload bytes over the
front of the config packet, then a transfer. -/
def opcSetFirmwareConfiguration (msg : OPCMessage) (ok : Bool) (s : FCState) : FCState :=
  let p := msg.data.drop 4
  let m := min s.mFirmwareConfig.length p.length
  writeFirmwareConfiguration ok
    { s with mFirmwareConfig := p.take m ++ s.mFirmwareConfig.drop m }

/-- `FCDevice::opcSysEx` (lines 382-407): messages shorter than 4 bytes are
dropped; the big-endian extension ID selects a handler; unknown IDs are
quietly ignored. -/
def opcSysEx (parse : List Nat → Except Nat Nat) (ok : Bool) (msg : OPCMessage)
    (s : FCState) : FCState :=
  if msg.data.length < 4 then s
  else
    let id := msg.data.getD 0 0 * 2 ^ 24 + msg.data.getD 1 0 * 2 ^ 16 +
      msg.data.getD 2 0 * 2 ^ 8 + msg.data.getD 3 0
    if id = OPC.FCSetGlobalColorCorrection then
      opcSetGlobalColorCorrection (parse (msg.data.drop 4)) ok s
    else if id = OPC.FCSetFirmwareConfiguration then
      opcSetFirmwareConfiguration msg ok s
    else s

/-- `FCDevice::writeMessage` (lines 359-380): dispatch one OPC message.
Note that a set-pixel-colors message always reaches `writeFramebuffer`,
whether or not a mapping is bound. -/
def writeMessage (K : Nat) (ok : Bool) (parse : List Nat → Except Nat Nat)
    (msg : OPCMessage) (s : FCState) : FCState :=
  if msg.command = OPC.SetPixelColors then
    writeFramebuffer K ok (opcSetPixelColors msg s)
  else if msg.command = OPC.SystemExclusive then
    opcSysEx parse ok msg s
  else s

theorem writeFramebuffer_mFramebuffer (K : Nat) (ok : Bool) (s : FCState) :
    (writeFramebuffer K ok s).mFramebuffer = s.mFramebuffer := by
  unfold writeFramebuffer submitTransfer
  by_cases h : (K : Int) ≤ s.mNumFramesPending
  · rw [if_pos h]
  · rw [if_neg h]
    cases ok <;> simp

theorem flushReap_no_finished (s : FCState)
    (hfin : ∀ t ∈ s.mPending, t.finished = false) : flushReap s = s := by
  have h1 : s.mPending.filter (fun fct => !fct.finished) = s.mPending := by
    rw [List.filter_eq_self]
    intro a ha
    simp [hfin a ha]
  have h2 : s.mPending.countP (fun fct => fct.finished && fct.type == PacketType.FRAME) = 0 := by
    rw [List.countP_eq_zero]
    intro a ha
    simp [hfin a ha]
  unfold flushReap
  rw [h1, h2]
  simp

theorem flush_no_finished (K : Nat) (ok : Bool) (s : FCState)
    (hfin : ∀ t ∈ s.mPending, t.finished = false) :
    flush K ok s =
      if s.mFrameWaitingForSubmit ∧ s.mNumFramesPending < (K : Int) then
        writeFramebuffer K ok s
      else s := by
  unfold flush
  rw [flushReap_no_finished s hfin]

/-- C3 (amended): with `mConfigMap` unbound, `opcSetPixelColors` itself is a
no-op, and `writeMessage` on a set-pixel-colors message degenerates to a bare
`writeFramebuffer` call, which leaves the framebuffer contents unchanged —
but which may still submit a frame transfer or set `mFrameWaitingForSubmit`,
so the message is not a no-op on the whole session state. -/
theorem writeMessage_unbound (K : Nat) (ok : Bool) (parse : List Nat → Except Nat Nat)
    (msg : OPCMessage) (s : FCState)
    (hmap : s.mConfigMap = none) (hcmd : msg.command = OPC.SetPixelColors) :
    opcSetPixelColors msg s = s ∧
    writeMessage K ok parse msg s = writeFramebuffer K ok s ∧
    (writeMessage K ok parse msg s).mFramebuffer = s.mFramebuffer := by
  have h1 : opcSetPixelColors msg s = s := by
    unfold opcSetPixelColors
    rw [hmap]
  have h2 : writeMessage K ok parse msg s = writeFramebuffer K ok s := by
    unfold writeMessage
    rw [if_pos hcmd, h1]
  exact ⟨h1, h2, by rw [h2, writeFramebuffer_mFramebuffer]⟩

/-- Witness for C3 (amended), at a concrete unbound session and a concrete
set-pixel-colors message. -/
theorem writeMessage_unbound_witness :
    opcSetPixelColors ⟨1, 0, [10, 20, 30]⟩
      (⟨[], 0, false, [(0, 0, 0)], none, 0, []⟩ : FCState) =
      (⟨[], 0, false, [(0, 0, 0)], none, 0, []⟩ : FCState) ∧
    writeMessage 2 true (fun _ => Except.error 0) ⟨1, 0, [10, 20, 30]⟩
      (⟨[], 0, false, [(0, 0, 0)], none, 0, []⟩ : FCState) =
      writeFramebuffer 2 true (⟨[], 0, false, [(0, 0, 0)], none, 0, []⟩ : FCState) ∧
    (writeMessage 2 true (fun _ => Except.error 0) ⟨1, 0, [10, 20, 30]⟩
      (⟨[], 0, false, [(0, 0, 0)], none, 0, []⟩ : FCState)).mFramebuffer =
      (⟨[], 0, false, [(0, 0, 0)], none, 0, []⟩ : FCState).mFramebuffer :=
  writeMessage_unbound 2 true (fun _ => Except.error 0) ⟨1, 0, [10, 20, 30]⟩
    ⟨[], 0, false, [(0, 0, 0)], none, 0, []⟩ rfl rfl

/-- C3 counterexample: the claim as stated is false.  On an unbound session
below the frame cap, processing a set-pixel-colors message increments
`mNumFramesPending` (a frame transfer is submitted), so session state does
change. -/
theorem writeMessage_unbound_cex :
    (⟨[], 0, false, [(0, 0, 0)], none, 0, []⟩ : FCState).mConfigMap = none ∧
    (writeMessage 2 true (fun _ => Except.error 0) ⟨1, 0, [10, 20, 30]⟩
        (⟨[], 0, false, [(0, 0, 0)], none, 0, []⟩ : FCState)).mNumFramesPending ≠
      (⟨[], 0, false, [(0, 0, 0)], none, 0, []⟩ : FCState).mNumFramesPending := by
  decide

/-- C4 (amended): with no newly completed transfers, the reap pass of `flush`
is the identity, and `flush` as a whole is the identity provided no deferred
frame is eligible for resubmission (`mFrameWaitingForSubmit` clear, or the
in-flight count still at the cap). -/
theorem flush_reap_identity (K : Nat) (ok : Bool) (s : FCState)
    (hfin : ∀ t ∈ s.mPending, t.finished = false)
    (hng : s.mFrameWaitingForSubmit = false ∨ (K : Int) ≤ s.mNumFramesPending) :
    flushReap s = s ∧ flush K ok s = s := by
  refine ⟨flushReap_no_finished s hfin, ?_⟩
  rw [flush_no_finished K ok s hfin, if_neg]
  rintro ⟨hw, hlt⟩
  rcases hng with h | h
  · rw [h] at hw
    exact Bool.false_ne_true (by exact_mod_cast hw)
  · omega

/-- Witness for C4 (amended), at a session with one unfinished in-flight
frame and no deferred frame. -/
theorem flush_reap_identity_witness :
    flushReap (⟨[⟨.FRAME, [(0, 0, 0)], false⟩], 1, false, [(0, 0, 0)], none, 0, []⟩ : FCState) =
      (⟨[⟨.FRAME, [(0, 0, 0)], false⟩], 1, false, [(0, 0, 0)], none, 0, []⟩ : FCState) ∧
    flush 2 true (⟨[⟨.FRAME, [(0, 0, 0)], false⟩], 1, false, [(0, 0, 0)], none, 0, []⟩ : FCState) =
      (⟨[⟨.FRAME, [(0, 0, 0)], false⟩], 1, false, [(0, 0, 0)], none, 0, []⟩ : FCState) :=
  flush_reap_identity 2 true ⟨[⟨.FRAME, [(0, 0, 0)], false⟩], 1, false, [(0, 0, 0)], none, 0, []⟩
    (by decide) (Or.inl rfl)

/-- C4 counterexample: the claim as stated is false.  In a session with a
deferred frame (`mFrameWaitingForSubmit = true`) below the cap — reachable
when a completion was reaped but the resubmission attempt failed — `flush`
with no newly completed transfers still submits a new frame and changes the
state. -/
theorem flush_reap_identity_cex :
    (∀ t ∈ ([⟨.FRAME, [(0, 0, 0)], false⟩] : List Transfer), t.finished = false) ∧
    flush 2 true (⟨[⟨.FRAME, [(0, 0, 0)], false⟩], 1, true, [(0, 0, 0)], none, 0, []⟩ : FCState) ≠
      (⟨[⟨.FRAME, [(0, 0, 0)], false⟩], 1, true, [(0, 0, 0)], none, 0, []⟩ : FCState) := by
  decide

/-- C10: a `writeFramebuffer` call below the in-flight cap whose submission
fails leaves the session state exactly as it was: `mNumFramesPending` not
incremented, `mFrameWaitingForSubmit` untouched, nothing added to `mPending`;
and since the flag stays clear, a subsequent reap pass with no completions
does not resubmit anything on behalf of the lost frame. -/
theorem writeFramebuffer_submitFail (K : Nat) (ok : Bool) (s : FCState)
    (hcap : s.mNumFramesPending < (K : Int))
    (hw : s.mFrameWaitingForSubmit = false)
    (hfin : ∀ t ∈ s.mPending, t.finished = false) :
    writeFramebuffer K false s = s ∧
    flush K ok (writeFramebuffer K false s) = s := by
  have h1 : writeFramebuffer K false s = s := by
    unfold writeFramebuffer
    rw [if_neg (not_le.mpr hcap)]
    simp [submitTransfer]
  refine ⟨h1, ?_⟩
  rw [h1]
  exact (flush_reap_identity K ok s hfin (Or.inl hw)).2

/-- Witness for C10, at a concrete session one slot below the cap. -/
theorem writeFramebuffer_submitFail_witness :
    writeFramebuffer 2 false
      (⟨[⟨.FRAME, [(0, 0, 0)], false⟩], 1, false, [(0, 0, 0)], none, 0, []⟩ : FCState) =
      (⟨[⟨.FRAME, [(0, 0, 0)], false⟩], 1, false, [(0, 0, 0)], none, 0, []⟩ : FCState) ∧
    flush 2 true (writeFramebuffer 2 false
      (⟨[⟨.FRAME, [(0, 0, 0)], false⟩], 1, false, [(0, 0, 0)], none, 0, []⟩ : FCState)) =
      (⟨[⟨.FRAME, [(0, 0, 0)], false⟩], 1, false, [(0, 0, 0)], none, 0, []⟩ : FCState) :=
  writeFramebuffer_submitFail 2 true
    ⟨[⟨.FRAME, [(0, 0, 0)], false⟩], 1, false, [(0, 0, 0)], none, 0, []⟩
    (by decide) rfl (by decide)

/-- C8: a set-global-color-correction message whose embedded JSON fails to
parse aborts atomically — the whole session state (LUT packets, in-flight
set, counters) is retained unchanged, no LUT transfer is submitted, and the
failure is reported with the parse error's byte offset. -/
theorem opcSetGlobalColorCorrection_abort (off : Nat) (ok : Bool) (s : FCState) :
    opcSetGlobalColorCorrection (Except.error off) ok s = s ∧
    colorCorrectionDiag (Except.error off) = some off :=
  ⟨rfl, rfl⟩

/-- C7: end-to-end mapping scenario.  With the single bound rule
`(1, 0, 0, 2)` and an 8-pixel framebuffer, a channel-1 set-pixel-colors
message carrying the triples `(10,20,30), (40,50,60)` stores them at pixels
0 and 1 and leaves the rest untouched; the same message on channel 2 leaves
the framebuffer bytes exactly unchanged. -/
theorem opcSetPixelColors_endToEnd :
    (opcSetPixelColors ⟨1, 0, [10, 20, 30, 40, 50, 60]⟩
      (⟨[], 0, false, List.replicate 8 (0, 0, 0), some [.rule 1 0 0 2], 0, []⟩ :
        FCState)).mFramebuffer =
      [(10, 20, 30), (40, 50, 60)] ++ List.replicate 6 (0, 0, 0) ∧
    (opcSetPixelColors ⟨2, 0, [10, 20, 30, 40, 50, 60]⟩
      (⟨[], 0, false, List.replicate 8 (0, 0, 0), some [.rule 1 0 0 2], 0, []⟩ :
        FCState)).mFramebuffer =
      List.replicate 8 (0, 0, 0) := by
  decide

theorem writeFramebuffer_fill (K i : Nat) (hi : i < K) (fb : List Byte3)
    (cm : Option (List MapInst)) (lut : Nat) (fw : List Nat) :
    writeFramebuffer K true
        ⟨List.replicate i ⟨.FRAME, fb, false⟩, (i : Int), false, fb, cm, lut, fw⟩ =
      ⟨List.replicate (i + 1) ⟨.FRAME, fb, false⟩, ((i + 1 : Nat) : Int), false,
        fb, cm, lut, fw⟩ := by
  unfold writeFramebuffer
  split
  next h => dsimp only at h; exfalso; omega
  next h => simp [submitTransfer, List.replicate_succ']

theorem writeFramebufferN_fill (K : Nat) :
    ∀ d i : Nat, i + d ≤ K → ∀ (fb : List Byte3) (cm : Option (List MapInst))
      (lut : Nat) (fw : List Nat),
    writeFramebufferN K d
        ⟨List.replicate i ⟨.FRAME, fb, false⟩, (i : Int), false, fb, cm, lut, fw⟩ =
      ⟨List.replicate (i + d) ⟨.FRAME, fb, false⟩, ((i + d : Nat) : Int), false,
        fb, cm, lut, fw⟩ := by
  intro d
  induction d with
  | zero =>
      intro i h fb cm lut fw
      simp [writeFramebufferN]
  | succ n ih =>
      intro i h fb cm lut fw
      have hidx : i + (n + 1) = (i + 1) + n := by omega
      rw [hidx]
      unfold writeFramebufferN
      rw [Function.iterate_succ_apply]
      have hstep := writeFramebuffer_fill K i (by omega) fb cm lut fw
      rw [hstep]
      have := ih (i + 1) (by omega) fb cm lut fw
      unfold writeFramebufferN at this
      exact_mod_cast this

/-- C2: backpressure drop semantics.  Starting from a fresh session, `K + 1`
`writeFramebuffer` calls whose submissions succeed and with no completions
observed leave exactly `K` frame transfers in flight with
`mNumFramesPending = K`; the `(K+1)`-th call only sets
`mFrameWaitingForSubmit` without submitting.  When the framebuffer is then
overwritten with `fb1`, one in-flight frame completes, and `flush` runs, the
deferred submission sends the *current* framebuffer contents `fb1` — latest
frame wins — not a separately queued copy of the dropped frame. -/
theorem writeFramebuffer_backpressure (K : Nat) (hK : 0 < K) (fb0 fb1 : List Byte3)
    (cm : Option (List MapInst)) (lut : Nat) (fw : List Nat) :
    let s0 : FCState := ⟨[], 0, false, fb0, cm, lut, fw⟩
    let s1 := writeFramebufferN K (K + 1) s0
    let s2 := flush K true (completeTransferAt 0 { s1 with mFramebuffer := fb1 })
    s1.mPending = List.replicate K ⟨.FRAME, fb0, false⟩ ∧
    s1.mNumFramesPending = (K : Int) ∧
    s1.mFrameWaitingForSubmit = true ∧
    s1.mFramebuffer = fb0 ∧
    s2.mPending = List.replicate (K - 1) ⟨.FRAME, fb0, false⟩ ++ [⟨.FRAME, fb1, false⟩] ∧
    s2.mNumFramesPending = (K : Int) ∧
    s2.mFrameWaitingForSubmit = false := by
  obtain ⟨k, rfl⟩ : ∃ k, K = k + 1 := ⟨K - 1, by omega⟩
  intro s0 s1 s2
  have hfillK : writeFramebufferN (k + 1) (k + 1) s0 =
      ⟨List.replicate (k + 1) ⟨.FRAME, fb0, false⟩, ((k + 1 : Nat) : Int), false,
        fb0, cm, lut, fw⟩ := by
    have := writeFramebufferN_fill (k + 1) (k + 1) 0 (by omega) fb0 cm lut fw
    simpa using this
  have hs1 : s1 = ⟨List.replicate (k + 1) ⟨.FRAME, fb0, false⟩, ((k + 1 : Nat) : Int),
      true, fb0, cm, lut, fw⟩ := by
    show writeFramebufferN (k + 1) (k + 2) s0 = _
    unfold writeFramebufferN
    rw [show k + 2 = 1 + (k + 1) from by omega, Function.iterate_add_apply,
      Function.iterate_one]
    show writeFramebuffer (k + 1) true (writeFramebufferN (k + 1) (k + 1) s0) = _
    rw [hfillK]
    unfold writeFramebuffer
    split
    next h => rfl
    next h => dsimp only at h; exfalso; omega
  have hs2pre : completeTransferAt 0 { s1 with mFramebuffer := fb1 } =
      ⟨⟨.FRAME, fb0, true⟩ :: List.replicate k ⟨.FRAME, fb0, false⟩,
        ((k + 1 : Nat) : Int), true, fb1, cm, lut, fw⟩ := by
    rw [hs1]
    unfold completeTransferAt
    simp [List.replicate_succ]
  have hfilt : (List.replicate k (⟨.FRAME, fb0, false⟩ : Transfer)).filter
      (fun fct => !fct.finished) = List.replicate k ⟨.FRAME, fb0, false⟩ := by
    rw [List.filter_eq_self]
    intro a ha
    rw [List.eq_of_mem_replicate ha]
    rfl
  have hcount : (List.replicate k (⟨.FRAME, fb0, false⟩ : Transfer)).countP
      (fun fct => fct.finished && fct.type == PacketType.FRAME) = 0 := by
    rw [List.countP_eq_zero]
    intro a ha
    rw [List.eq_of_mem_replicate ha]
    simp
  have hreap : flushReap (completeTransferAt 0 { s1 with mFramebuffer := fb1 }) =
      ⟨List.replicate k ⟨.FRAME, fb0, false⟩, (k : Nat), true, fb1, cm, lut, fw⟩ := by
    rw [hs2pre]
    unfold flushReap
    simp [List.filter_cons, List.countP_cons, hfilt, hcount]
  have hs2 : s2 = ⟨List.replicate k ⟨.FRAME, fb0, false⟩ ++ [⟨.FRAME, fb1, false⟩],
      ((k + 1 : Nat) : Int), false, fb1, cm, lut, fw⟩ := by
    show flush (k + 1) true (completeTransferAt 0 { s1 with mFramebuffer := fb1 }) = _
    unfold flush
    rw [hreap]
    dsimp only
    split
    next h =>
      unfold writeFramebuffer
      split
      next h2 => dsimp only at h2; exfalso; omega
      next h2 => simp [submitTransfer]
    next h =>
      exfalso
      apply h
      constructor
      · rfl
      · push_cast; omega
  rw [hs1, hs2]
  refine ⟨rfl, rfl, rfl, rfl, ?_, rfl, rfl⟩
  simp

/-- Witness for C2 at `K = 2`: two successful submissions fill the in-flight
set, the third is deferred, and after one completion the flush resubmits the
overwritten framebuffer contents. -/
theorem writeFramebuffer_backpressure_witness :
    let s0 : FCState := ⟨[], 0, false, [(1, 2, 3)], none, 0, []⟩
    let s1 := writeFramebufferN 2 3 s0
    let s2 := flush 2 true (completeTransferAt 0 { s1 with mFramebuffer := [(7, 8, 9)] })
    s1.mPending = List.replicate 2 ⟨.FRAME, [(1, 2, 3)], false⟩ ∧
    s1.mNumFramesPending = (2 : Int) ∧
    s1.mFrameWaitingForSubmit = true ∧
    s1.mFramebuffer = [(1, 2, 3)] ∧
    s2.mPending = List.replicate 1 ⟨.FRAME, [(1, 2, 3)], false⟩ ++ [⟨.FRAME, [(7, 8, 9)], false⟩] ∧
    s2.mNumFramesPending = (2 : Int) ∧
    s2.mFrameWaitingForSubmit = false :=
  writeFramebuffer_backpressure 2 (by decide) [(1, 2, 3)] [(7, 8, 9)] none 0 []

/-- Number of `FRAME`-kind transfers in the in-flight set. -/
def framesInFlight (l : List Transfer) : Nat :=
  l.countP (fun fct => fct.type == PacketType.FRAME)

/-- The frame-counting invariant of C9: `mNumFramesPending` counts exactly
the `FRAME`-kind transfers of `mPending`, and stays within
`[0, MAX_FRAMES_PENDING]`. -/
def FCInv (K : Nat) (s : FCState) : Prop :=
  s.mNumFramesPending = (framesInFlight s.mPending : Int) ∧
  0 ≤ s.mNumFramesPending ∧ s.mNumFramesPending ≤ (K : Int)

instance (K : Nat) (s : FCState) : Decidable (FCInv K s) :=
  inferInstanceAs (Decidable (_ ∧ _ ∧ _))

theorem framesInFlight_reap (l : List Transfer) :
    framesInFlight (l.filter (fun fct => !fct.finished)) +
      l.countP (fun fct => fct.finished && fct.type == PacketType.FRAME) =
    framesInFlight l := by
  induction l with
  | nil => rfl
  | cons a l ih =>
      unfold framesInFlight at ih ⊢
      cases hfin : a.finished <;> cases hfr : (a.type == PacketType.FRAME) <;>
        simp [List.filter_cons, List.countP_cons, hfin, hfr] <;> omega

theorem countP_reap_le (l : List Transfer) :
    l.countP (fun fct => fct.finished && fct.type == PacketType.FRAME) ≤
      framesInFlight l := by
  have h := framesInFlight_reap l
  omega

theorem FCInv_writeFramebuffer (K : Nat) (ok : Bool) (s : FCState)
    (h : FCInv K s) : FCInv K (writeFramebuffer K ok s) := by
  obtain ⟨h1, h2, h3⟩ := h
  unfold writeFramebuffer
  split
  next hc => exact ⟨h1, h2, h3⟩
  next hc =>
    cases ok with
    | false => simp only [submitTransfer]; exact ⟨h1, h2, h3⟩
    | true =>
        show FCInv K { s with
          mPending := s.mPending ++ [⟨.FRAME, s.mFramebuffer, false⟩],
          mFrameWaitingForSubmit := false,
          mNumFramesPending := s.mNumFramesPending + 1 }
        have hone : List.countP (fun fct => fct.type == PacketType.FRAME)
            [(⟨.FRAME, s.mFramebuffer, false⟩ : Transfer)] = 1 := rfl
        refine ⟨?_, ?_, ?_⟩
        · show s.mNumFramesPending + 1 =
            (framesInFlight (s.mPending ++ [⟨.FRAME, s.mFramebuffer, false⟩]) : Int)
          unfold framesInFlight at h1 ⊢
          rw [List.countP_append, hone]
          push_cast
          omega
        · show 0 ≤ s.mNumFramesPending + 1
          omega
        · show s.mNumFramesPending + 1 ≤ (K : Int)
          omega

theorem FCInv_flushReap (K : Nat) (s : FCState) (h : FCInv K s) :
    FCInv K (flushReap s) := by
  obtain ⟨h1, h2, h3⟩ := h
  have hle := countP_reap_le s.mPending
  have hreap := framesInFlight_reap s.mPending
  unfold flushReap
  refine ⟨?_, ?_, ?_⟩ <;> dsimp only <;> omega

theorem FCInv_flush (K : Nat) (ok : Bool) (s : FCState) (h : FCInv K s) :
    FCInv K (flush K ok s) := by
  unfold flush
  dsimp only
  split
  · exact FCInv_writeFramebuffer K ok _ (FCInv_flushReap K s h)
  · exact FCInv_flushReap K s h

theorem FCInv_completeTransferAt (K : Nat) (i : Nat) (s : FCState)
    (h : FCInv K s) : FCInv K (completeTransferAt i s) := by
  obtain ⟨h1, h2, h3⟩ := h
  have hsplit : framesInFlight (completeTransferAt i s).mPending =
      framesInFlight s.mPending := by
    show framesInFlight (s.mPending.take i ++ _) = _
    conv_rhs => rw [show s.mPending = s.mPending.take i ++ s.mPending.drop i from
      (List.take_append_drop i s.mPending).symm]
    unfold framesInFlight
    rw [List.countP_append, List.countP_append]
    congr 1
    cases hd : s.mPending.drop i with
    | nil => rfl
    | cons t r => simp [List.countP_cons]
  exact ⟨by rw [hsplit]; exact h1, h2, h3⟩

/-- C9 (amended): the invariant "`mNumFramesPending` = number of FRAME-kind
transfers in `mPending`, within `[0, MAX_FRAMES_PENDING]`" is preserved by
`writeFramebuffer`, `flush`, the destructor, completion callbacks, and by
`submitTransfer` for non-frame transfers.  (A bare `submitTransfer` of a
FRAME-kind transfer breaks it momentarily — see the counterexample — the
counter is incremented by the caller `writeFramebuffer` right afterwards.) -/
theorem fcdevice_frame_invariant (K : Nat) (ok : Bool) (s : FCState)
    (fct : Transfer) (i : Nat) (h : FCInv K s)
    (hother : fct.type ≠ PacketType.FRAME) :
    FCInv K (submitTransfer ok fct s).1 ∧
    FCInv K (writeFramebuffer K ok s) ∧
    FCInv K (flush K ok s) ∧
    FCInv K (destructorCancelAll s) ∧
    FCInv K (completeTransferAt i s) := by
  refine ⟨?_, FCInv_writeFramebuffer K ok s h, FCInv_flush K ok s h, h,
    FCInv_completeTransferAt K i s h⟩
  obtain ⟨h1, h2, h3⟩ := h
  unfold submitTransfer
  cases ok with
  | false => exact ⟨h1, h2, h3⟩
  | true =>
      show FCInv K { s with mPending := s.mPending ++ [fct] }
      have hzero : List.countP (fun t => t.type == PacketType.FRAME) [fct] = 0 := by
        simp only [List.countP_cons, List.countP_nil]
        have hft : (fct.type == PacketType.FRAME) = false := by
          cases hft : fct.type
          · rfl
          · exact absurd hft hother
        rw [hft]
        rfl
      refine ⟨?_, h2, h3⟩
      show s.mNumFramesPending = (framesInFlight (s.mPending ++ [fct]) : Int)
      unfold framesInFlight at h1 ⊢
      rw [List.countP_append, hzero]
      simpa using h1

/-- Witness for C9 (amended), at a session holding one unfinished frame
transfer and one unfinished non-frame transfer. -/
theorem fcdevice_frame_invariant_witness :
    FCInv 2 (submitTransfer true ⟨.OTHER, [], false⟩
      (⟨[⟨.FRAME, [(0, 0, 0)], false⟩], 1, false, [(0, 0, 0)], none, 0, []⟩ : FCState)).1 ∧
    FCInv 2 (writeFramebuffer 2 true
      (⟨[⟨.FRAME, [(0, 0, 0)], false⟩], 1, false, [(0, 0, 0)], none, 0, []⟩ : FCState)) ∧
    FCInv 2 (flush 2 true
      (⟨[⟨.FRAME, [(0, 0, 0)], false⟩], 1, false, [(0, 0, 0)], none, 0, []⟩ : FCState)) ∧
    FCInv 2 (destructorCancelAll
      (⟨[⟨.FRAME, [(0, 0, 0)], false⟩], 1, false, [(0, 0, 0)], none, 0, []⟩ : FCState)) ∧
    FCInv 2 (completeTransferAt 0
      (⟨[⟨.FRAME, [(0, 0, 0)], false⟩], 1, false, [(0, 0, 0)], none, 0, []⟩ : FCState)) :=
  fcdevice_frame_invariant 2 true
    ⟨[⟨.FRAME, [(0, 0, 0)], false⟩], 1, false, [(0, 0, 0)], none, 0, []⟩
    ⟨.OTHER, [], false⟩ 0 (by decide) (by decide)

/-- C9 counterexample: the claim as stated is false at the `submitTransfer`
boundary.  Submitting a FRAME-kind transfer leaves `mNumFramesPending`
untouched while the in-flight set gains a frame, so the equality fails right
after `submitTransfer` returns (it is only restored by the caller,
`writeFramebuffer`, incrementing the counter). -/
theorem fcdevice_frame_invariant_cex :
    FCInv 2 (⟨[], 0, false, [(0, 0, 0)], none, 0, []⟩ : FCState) ∧
    ¬ FCInv 2 (submitTransfer true ⟨.FRAME, [(0, 0, 0)], false⟩
      (⟨[], 0, false, [(0, 0, 0)], none, 0, []⟩ : FCState)).1 := by
  decide

/-- Truncation toward zero: the C conversion of a `double` to `int64_t`
performed on line 319 of `fcdevice.cpp`. -/
def truncTowardZero (x : ℚ) : ℤ := if 0 ≤ x then ⌊x⌋ else -⌊-x⌋

/-- Line 319: `int64_t longValue = (output * 0xFFFF) + 0.5` — the wide
(64-bit) rounding of the curve output, here over exact rationals in
unbounded `ℤ`. -/
def lutLongValue (output : ℚ) : ℤ := truncTowardZero (output * 65535 + 1 / 2)

/-- Line 320: `int intValue = std::max<int64_t>(0, std::min<int64_t>(0xFFFF,
longValue))` — the clamped LUT entry. -/
def lutIntValue (output : ℚ) : ℤ := max 0 (min 65535 (lutLongValue output))

/-- Line 323: `uint8_t(intValue)`, the little-endian low byte. -/
def lutByteLow (v : ℤ) : ℤ := v % 256

/-- Line 324: `uint8_t(intValue >> 8)`, the high byte. -/
def lutByteHigh (v : ℤ) : ℤ := (v / 256) % 256

/-- C5: for every curve output, including pathological ones above 1 or below
0, the 16-bit value stored in the LUT packets is the rounded output clamped
to `[0, 65535]`; the clamp is computed in an unbounded wide integer type, so
no modular wrap occurs, and the two stored bytes recompose to exactly the
clamped value. -/
theorem lutIntValue_clamped (output : ℚ) :
    lutIntValue output = max 0 (min 65535 (lutLongValue output)) ∧
    0 ≤ lutIntValue output ∧ lutIntValue output ≤ 65535 ∧
    lutByteLow (lutIntValue output) + 256 * lutByteHigh (lutIntValue output) =
      lutIntValue output := by
  have hnn : 0 ≤ lutIntValue output := le_max_left 0 _
  have hub : lutIntValue output ≤ 65535 := max_le (by norm_num) (min_le_left _ _)
  refine ⟨rfl, hnn, hub, ?_⟩
  unfold lutByteLow lutByteHigh
  omega

/-- Line 297, at the default whitepoint 1: the normalized input
`(entry << 8) / 65535.0` of one LUT entry. -/
noncomputable def fcCurveInput (entry : Nat) : ℝ := (entry * 256 : Nat) / 65535

/-- Line 306, the linear branch of the curve: `output = input * linearSlope`. -/
noncomputable def fcCurveLinear (linearSlope input : ℝ) : ℝ := input * linearSlope

/-- Lines 313-315, the nonlinear branch of the curve:
`output = linearCutoff + pow(nonlinearInput / scale, gamma) * scale` with
`nonlinearInput = input - linearSlope * linearCutoff` and
`scale = 1 - linearCutoff`. -/
noncomputable def fcCurveNonlinear (gamma linearSlope linearCutoff input : ℝ) : ℝ :=
  linearCutoff +
    ((input - linearSlope * linearCutoff) / (1 - linearCutoff)) ^ gamma *
      (1 - linearCutoff)

/-- Modelled from the spec: the per-channel lookup resolution `N`
(`LUT_ENTRIES`, a header constant outside `src/`).  The spec fixes the input
law `(i << 8) / 65535.0`, says the input domain slightly exceeds 1.0 at the
highest index and that 1.0 itself is unreachable, which forces the highest
index 256, i.e. `N = 257`. -/
def LUT_ENTRIES : Nat := 257

/-- Entry `e` is nearest (among the LUT entry indices) to the boundary
between the linear and nonlinear branches, i.e. it minimizes the distance of
`input * linearSlope` from `linearCutoff` (the branch condition of
line 303). -/
def isNearestEntryToCutoff (linearSlope linearCutoff : ℝ) (e : Nat) : Prop :=
  e < LUT_ENTRIES ∧
  ∀ i : Nat, i < LUT_ENTRIES →
    |fcCurveInput e * linearSlope - linearCutoff| ≤
      |fcCurveInput i * linearSlope - linearCutoff|

/-- C6 (amended): at the default parameters `gamma = 1`, `linearSlope = 1`
(and any `0 ≤ linearCutoff < 1`), the linear and the nonlinear formula agree
exactly at every input, so in particular at the entry nearest the cutoff
boundary their difference is `0`, below one quantization step `1/65535`.
For general `gamma` the bound fails — see the counterexample. -/
theorem fcCurve_continuity_default (linearCutoff x : ℝ)
    (_h0 : 0 ≤ linearCutoff) (h1 : linearCutoff < 1) :
    |fcCurveLinear 1 x - fcCurveNonlinear 1 1 linearCutoff x| < 1 / 65535 := by
  have hne : (1 : ℝ) - linearCutoff ≠ 0 := ne_of_gt (by linarith)
  have hz : fcCurveLinear 1 x - fcCurveNonlinear 1 1 linearCutoff x = 0 := by
    unfold fcCurveLinear fcCurveNonlinear
    rw [Real.rpow_one, div_mul_cancel₀ _ hne]
    ring
  rw [hz, abs_zero]
  norm_num

/-- Witness for C6 (amended) at `linearCutoff = 1/2`, evaluated at the input
of entry 128. -/
theorem fcCurve_continuity_default_witness :
    |fcCurveLinear 1 (fcCurveInput 128) -
      fcCurveNonlinear 1 1 (1 / 2) (fcCurveInput 128)| < 1 / 65535 :=
  fcCurve_continuity_default (1 / 2) (fcCurveInput 128) (by norm_num) (by norm_num)

/-- C6 counterexample: the claim as stated is false.  With `gamma = 2`,
`linearSlope = 1`, `linearCutoff = 639/65535` (which satisfies
`0 ≤ linearCutoff < 1`), the entry nearest the cutoff boundary is entry 2,
and there the linear and nonlinear formulas differ by
`127/65535 + 16129/(64896 * 65535)` — about 127 quantization steps, not less
than one. -/
theorem fcCurve_continuity_cex :
    (0 : ℝ) ≤ 639 / 65535 ∧ (639 / 65535 : ℝ) < 1 ∧
    isNearestEntryToCutoff 1 (639 / 65535) 2 ∧
    ¬ |fcCurveLinear 1 (fcCurveInput 2) -
        fcCurveNonlinear 2 1 (639 / 65535) (fcCurveInput 2)| < 1 / 65535 := by
  have hin2 : fcCurveInput 2 = 512 / 65535 := by
    unfold fcCurveInput
    norm_num
  refine ⟨by norm_num, by norm_num, ⟨by norm_num [LUT_ENTRIES], ?_⟩, ?_⟩
  · intro i hi
    have h2 : |fcCurveInput 2 * 1 - 639 / 65535| = 127 / 65535 := by
      rw [hin2, show (512 : ℝ) / 65535 * 1 - 639 / 65535 = -(127 / 65535) by norm_num,
        abs_neg, abs_of_nonneg (by norm_num)]
    rw [h2]
    unfold fcCurveInput
    push_cast
    have hrw : (i : ℝ) * 256 / 65535 * 1 - 639 / 65535 = (256 * (i : ℝ) - 639) / 65535 := by
      ring
    rw [hrw, abs_div, abs_of_nonneg (show (0 : ℝ) ≤ 65535 by norm_num)]
    gcongr
    rcases le_or_lt i 2 with hle | hgt
    · have hle2 : (i : ℝ) ≤ 2 := by exact_mod_cast hle
      have hneg : 256 * (i : ℝ) - 639 ≤ -127 := by linarith
      calc (127 : ℝ) ≤ -(256 * (i : ℝ) - 639) := by linarith
        _ ≤ |256 * (i : ℝ) - 639| := neg_le_abs _
    · have hge3 : (3 : ℝ) ≤ (i : ℝ) := by exact_mod_cast hgt
      have hpos : (129 : ℝ) ≤ 256 * (i : ℝ) - 639 := by linarith
      calc (127 : ℝ) ≤ 256 * (i : ℝ) - 639 := by linarith
        _ ≤ |256 * (i : ℝ) - 639| := le_abs_self _
  · have harg : fcCurveLinear 1 (fcCurveInput 2) -
        fcCurveNonlinear 2 1 (639 / 65535) (fcCurveInput 2) =
        -(127 / 65535 + 16129 / (64896 * 65535)) := by
      unfold fcCurveLinear fcCurveNonlinear
      rw [hin2, show (2 : ℝ) = ((2 : Nat) : ℝ) by norm_num, Real.rpow_natCast]
      norm_num
    rw [not_lt, harg, abs_neg, abs_of_nonneg (by positivity)]
    norm_num
